import Mathlib

/-!
Shallow embedding of `src/index.js` of bitnami/node-docker-utils.

The library drives the `docker` binary.  We model the JavaScript values that
flow through the argument builders, the builders themselves
(`_getBinds`, `_parseRunOptions`, `_parseRunCommandArguments`), container
removal (`_removeContainer`), the id lookups (`getContainerId`,
`getImageId`, `imageExists`) and the two run entry points
(`runInContainer`, `runInContainerAsync`).  External effects (the docker
binary's outputs, failures of spawned commands, process-exit and interrupt
triggers, timeout expiry) are parameters of the model: a `DockerEnv`
records what the runtime answers, and a `Scenario` records which
termination triggers fire during an async run.  Each model function returns
the observable trace of the corresponding JS function: the commands it
executed, the log lines it emitted, the callback invocations it performed
and the error it threw, if any.
-/

namespace DockerUtils

/-- JavaScript values that appear as `runOptions` values in the source:
strings, booleans, `null` and `undefined`. -/
inductive JsVal where
  | vStr (s : String)
  | vBool (b : Bool)
  | vNull
  | vUndef
deriving DecidableEq

/-- Template-literal interpolation (`${v}`) of a JS value into a string. -/
def jsValToString : JsVal → String
  | .vStr s => s
  | .vBool true => "true"
  | .vBool false => "false"
  | .vNull => "null"
  | .vUndef => "undefined"

/-- `array.join(' ')` on a mixed JS array, as built by the run entry points. -/
def joinArgs (args : List JsVal) : String :=
  String.intercalate " " (args.map jsValToString)

/-- First binding of a key in an option map (JS object property access). -/
def lookupVal (k : String) : List (String × JsVal) → Option JsVal
  | [] => none
  | kv :: rest => if kv.1 = k then some kv.2 else lookupVal k rest

/-- `_.opts(options, defaults)`: the caller's entries, followed by each
default entry whose key the caller did not set. -/
def jsOpts (options defaults : List (String × JsVal)) :
    List (String × JsVal) :=
  options ++ defaults.filter (fun kv => options.all (fun kv2 => kv2.1 ≠ kv.1))

/-- A value of the `mappings` object: the container path as a plain string,
a JS object with (possibly missing) `path` and `mode` properties, or any
other JS value (carried as its `JSON.stringify` rendering). -/
inductive MappingVal where
  | mStr (s : String)
  | mObj (path : Option String) (mode : Option String)
  | mOther (rendered : String)
deriving DecidableEq

/-- `if (mode) bindSpec += ':' + mode`: the mode suffix is appended only
when `mode` is truthy (present and not the empty string). -/
def modeSuffix : Option String → String
  | some m => if m = "" then "" else ":" ++ m
  | none => ""

/-- One entry of `_getBinds`: either the two produced elements
`['-v', bindSpec]` or the `Invalid mapping spec` error it throws. -/
def bindEntry (hostPath : String) : MappingVal → Except String (List String)
  | .mStr containerPath => .ok ["-v", hostPath ++ ":" ++ containerPath]
  | .mObj path mode =>
      .ok ["-v", hostPath ++ ":" ++ path.getD "undefined" ++ modeSuffix mode]
  | .mOther rendered => .error ("Invalid mapping spec " ++ rendered)

/-- `_getBinds(mappings)`: the flat `-v` flag list, or the error thrown at
the first mapping value that is neither a string nor an object. -/
def getBinds : List (String × MappingVal) → Except String (List String)
  | [] => .ok []
  | (hostPath, v) :: rest =>
      match bindEntry hostPath v with
      | .error e => .error e
      | .ok pair =>
          match getBinds rest with
          | .error e => .error e
          | .ok r => .ok (pair ++ r)

/-- The elements `_parseRunOptions` pushes for one `(key, value)` entry:
`--key` unless the value is `false`, then the value itself unless it is
`null`, `undefined` or `true`. -/
def optionEntryFlags (kv : String × JsVal) : List JsVal :=
  (if kv.2 = JsVal.vBool false then [] else [JsVal.vStr ("--" ++ kv.1)]) ++
    (if kv.2 = JsVal.vNull ∨ kv.2 = JsVal.vUndef ∨ kv.2 = JsVal.vBool true
      then [] else [kv.2])

/-- `_parseRunOptions(runOptions)`. -/
def parseRunOptions : List (String × JsVal) → List JsVal
  | [] => []
  | kv :: rest => optionEntryFlags kv ++ parseRunOptions rest

/-- `_parseRunCommandArguments(id, cmd, runOptions, mappings)`: defaults
`interactive` to `null`, then `['run'].concat(binds, parsedRunOptions, id,
cmd)`.  A `cmd` given as a single string is the one-element list. -/
def parseRunCommandArguments (id : String) (cmd : List String)
    (runOptions : List (String × JsVal))
    (mappings : List (String × MappingVal)) : Except String (List JsVal) :=
  let runOptions2 := jsOpts runOptions [("interactive", JsVal.vNull)]
  let parsed := parseRunOptions runOptions2
  match getBinds mappings with
  | .error e => .error e
  | .ok binds =>
      .ok (JsVal.vStr "run" :: (binds.map JsVal.vStr ++ parsed ++
        [JsVal.vStr id] ++ cmd.map JsVal.vStr))

/-- What the external docker runtime and the process driver answer: the
stdout of `ps -aq --filter name=...` and of `images -q ...`, the result of
an executed `rm` command, and the result of the synchronous run command. -/
structure DockerEnv where
  psOutput : String → String
  imagesOutput : String → String
  rmResult : String → Except String String
  execResult : String → Except String String

/-- The characters up to the first occurrence of `c`. -/
def charsBefore (c : Char) : List Char → List Char
  | [] => []
  | x :: rest => if x = c then [] else x :: charsBefore c rest

/-- The character list with the first occurrence of `c` removed. -/
def removeFirstChar (c : Char) : List Char → List Char
  | [] => []
  | x :: rest => if x = c then rest else x :: removeFirstChar c rest

/-- JS `s.split('\n')[0]`: everything before the first newline. -/
def firstLine (s : String) : String :=
  String.mk (charsBefore '\n' s.data)

/-- JS `s.replace('\n', '')`: a string pattern replaces only the first
occurrence, so only the first newline is removed. -/
def removeFirstNewline (s : String) : String :=
  String.mk (removeFirstChar '\n' s.data)

/-- `getContainerId(name)`: the `ps -aq` output with its first newline
removed, or `null` when that leaves the empty string. -/
def getContainerId (env : DockerEnv) (name : String) : Option String :=
  let res := removeFirstNewline (env.psOutput name)
  if res = "" then none else some res

/-- `getImageId(imageName)`: the first line of the `images -q` output, or
`null` when that first line is empty. -/
def getImageId (env : DockerEnv) (imageName : String) : Option String :=
  let res := firstLine (env.imagesOutput imageName)
  if res = "" then none else some res

/-- `imageExists(imageName) = !_.isEmpty(getImageId(imageName))`;
lodash `isEmpty` is true on `null` and on the empty string. -/
def imageExists (env : DockerEnv) (imageName : String) : Bool :=
  !(match getImageId env imageName with
    | none => true
    | some s => s == "")

/-- The command string `_removeContainer` executes:
`` `rm ${options.force ? '-f' : ''} ${containerId}` `` (a `null`
identifier is interpolated as the text `null`). -/
def removeContainerCmd (force : Bool) (containerId : Option String) :
    String :=
  "rm " ++ (if force then "-f" else "") ++ " " ++ containerId.getD "null"

/-- Observable trace of one `_removeContainer` call: the commands it ran,
its `debug`/`error` log lines, and whether its completion callback ran. -/
structure RemoveTrace where
  cmds : List String
  debugLogs : List String
  errorLogs : List String
  callbackRan : Bool
deriving DecidableEq

/-- The body of `_removeContainer`: run the `rm` command; on success log at
debug level, on failure log the error at error level (the `try`/`catch`);
then run the callback when one was supplied. -/
def removeContainerTrace (env : DockerEnv) (containerId : Option String)
    (hasCallback : Bool) (force : Bool) : RemoveTrace :=
  let c := removeContainerCmd force containerId
  match env.rmResult c with
  | .ok _ =>
      { cmds := [c],
        debugLogs := ["Temporary container successfully deleted"],
        errorLogs := [], callbackRan := hasCallback }
  | .error e =>
      { cmds := [c], debugLogs := [],
        errorLogs := ["Failed to delete container " ++ e],
        callbackRan := hasCallback }

/-- `_removeContainer` as a fallible JS function: `.error` would mean an
exception escaping to the caller.  The `catch` inside makes every branch
return `.ok`. -/
def removeContainer (env : DockerEnv) (containerId : Option String)
    (hasCallback : Bool) (force : Bool) : Except String RemoveTrace :=
  .ok (removeContainerTrace env containerId hasCallback force)

/-- A termination trigger observed while an async run waits: the spawned
process exiting with a result, or a SIGINT delivered to the host process. -/
inductive TermEvent where
  | procExit (code : Int)
  | sigint
deriving DecidableEq

/-- The exit code the `onExit` handler receives: the process result on
exit, the synthetic `{exitCode: 127}` on SIGINT. -/
def termCode : TermEvent → Int
  | .procExit code => code
  | .sigint => 127

/-- What the process driver does during one async run: which termination
triggers fire (in order), and whether `handler.wait` then hits its
timeout instead of returning normally. -/
structure Scenario where
  events : List TermEvent
  timedOut : Bool

/-- Observable trace of one `runInContainerAsync` call. -/
structure AsyncOutcome where
  spawned : List String
  removals : List String
  callbackCalls : List (Option String × Int)
  removalErrorLogs : List String
  hostExited : Bool
  thrown : Option String
deriving DecidableEq

/-- One firing of the `onExit` handler: look up the container id by the
assigned name, invoke the caller's callback when one was supplied, then
force-remove the container (whose completion callback calls
`process.exit()` when `exitOnEnd` is set).  Once the host process has
exited nothing more happens. -/
def onExitStep (env : DockerEnv) (name : String)
    (hasCallback exitOnEnd : Bool) (acc : AsyncOutcome) (code : Int) :
    AsyncOutcome :=
  if acc.hostExited then acc
  else
    let cid := getContainerId env name
    let rt := removeContainerTrace env cid true true
    { acc with
      callbackCalls :=
        acc.callbackCalls ++ (if hasCallback then [(cid, code)] else []),
      removals := acc.removals ++ rt.cmds,
      removalErrorLogs := acc.removalErrorLogs ++ rt.errorLogs,
      hostExited := exitOnEnd }

/-- The container name `runInContainerAsync` uses for its lookups:
`options.runOptions.name` after defaulting `name` to the generated
timestamp name. -/
def assignedName (runOptions : List (String × JsVal)) (genName : String) :
    String :=
  jsValToString
    ((lookupVal "name" (jsOpts runOptions [("name", JsVal.vStr genName)])).getD
      JsVal.vUndef)

/-- `runInContainerAsync(id, cmd, callback, options)`.  `genName` is the
`strftime('%s')` timestamp used when the caller supplies no name,
`scenario` the driver behaviour.  Argument building happens before the
spawn; each termination trigger runs `onExitStep`; if the wait then times
out, the container is looked up and force-removed and the driver's timeout
failure is re-thrown. -/
def runInContainerAsync (env : DockerEnv) (id : String) (cmd : List String)
    (hasCallback : Bool) (runOptions : List (String × JsVal))
    (mappings : List (String × MappingVal)) (genName : String)
    (exitOnEnd : Bool) (scenario : Scenario) : AsyncOutcome :=
  let runOptions2 := jsOpts runOptions [("name", JsVal.vStr genName)]
  let name := assignedName runOptions genName
  match parseRunCommandArguments id cmd runOptions2 mappings with
  | .error e =>
      { spawned := [], removals := [], callbackCalls := [],
        removalErrorLogs := [], hostExited := false, thrown := some e }
  | .ok args =>
      let init : AsyncOutcome :=
        { spawned := ["docker " ++ joinArgs args], removals := [],
          callbackCalls := [], removalErrorLogs := [], hostExited := false,
          thrown := none }
      let afterEvents := scenario.events.foldl
        (fun acc ev => onExitStep env name hasCallback exitOnEnd acc
          (termCode ev)) init
      if afterEvents.hostExited then afterEvents
      else if scenario.timedOut then
        let cid := getContainerId env name
        let rt := removeContainerTrace env cid false true
        { afterEvents with
          removals := afterEvents.removals ++ rt.cmds,
          removalErrorLogs := afterEvents.removalErrorLogs ++ rt.errorLogs,
          thrown := some "Exceeded timeout" }
      else afterEvents

/-- Observable trace of one `runInContainer` call: the command handed to
the docker binary (if any) and the result or error returned. -/
structure SyncOutcome where
  spawned : List String
  result : Except String String

/-- `runInContainer(id, cmd, options)`: build the argument list, then
execute it synchronously. -/
def runInContainer (env : DockerEnv) (id : String) (cmd : List String)
    (runOptions : List (String × JsVal))
    (mappings : List (String × MappingVal)) : SyncOutcome :=
  match parseRunCommandArguments id cmd runOptions mappings with
  | .error e => { spawned := [], result := .error e }
  | .ok args =>
      let c := joinArgs args
      { spawned := [c], result := env.execResult c }

/-- A concrete runtime environment: one container `cid1` is known by every
name, every `rm` succeeds, and the image listing has first line `abc123`. -/
def envT : DockerEnv :=
  { psOutput := fun _ => "cid1\n", imagesOutput := fun _ => "abc123\nrest",
    rmResult := fun _ => .ok "", execResult := fun _ => .ok "done" }

/-- A concrete runtime environment in which every executed command fails
with the message `boom` and all lookups come back empty. -/
def envFail : DockerEnv :=
  { psOutput := fun _ => "", imagesOutput := fun _ => "",
    rmResult := fun _ => .error "boom", execResult := fun _ => .error "boom" }

/-- An interrupt is delivered and afterwards the process exits normally:
two termination triggers in one run, no timeout. -/
def sigintThenExit : Scenario :=
  { events := [TermEvent.sigint, TermEvent.procExit 0], timedOut := false }

/-- The process exits normally, the only trigger, no timeout. -/
def singleExit : Scenario :=
  { events := [TermEvent.procExit 0], timedOut := false }

/-! ### Helper lemmas about the argument builders and the async fold -/

/-- The commands `_removeContainer` runs do not depend on whether the `rm`
succeeded: it is always exactly the one `rm` command. -/
theorem removeContainerTrace_cmds (env : DockerEnv)
    (containerId : Option String) (hasCallback force : Bool) :
    (removeContainerTrace env containerId hasCallback force).cmds =
      [removeContainerCmd force containerId] := by
  cases h : env.rmResult (removeContainerCmd force containerId) <;>
    simp [removeContainerTrace, h]

/-- A successfully built bind entry of a mapping appears contiguously in
the output of `_getBinds`. -/
theorem getBinds_mem_chunk (mappings : List (String × MappingVal)) :
    ∀ (binds pair : List String) (hostPath : String) (v : MappingVal),
      getBinds mappings = .ok binds → (hostPath, v) ∈ mappings →
      bindEntry hostPath v = .ok pair →
      ∃ pre post, binds = pre ++ pair ++ post := by
  induction mappings with
  | nil => intro binds pair hostPath v _ hmem _; simp at hmem
  | cons hd tl ih =>
      intro binds pair hostPath v hok hmem hentry
      obtain ⟨hh, hv⟩ := hd
      unfold getBinds at hok
      cases hbe : bindEntry hh hv with
      | error e => rw [hbe] at hok; simp at hok
      | ok p =>
          rw [hbe] at hok
          cases hrest : getBinds tl with
          | error e => rw [hrest] at hok; simp at hok
          | ok r =>
              rw [hrest] at hok
              simp only [Except.ok.injEq] at hok
              rcases List.mem_cons.mp hmem with hhd | htl
              · obtain ⟨h1, h2⟩ := Prod.mk.injEq .. ▸ hhd
                refine ⟨[], r, ?_⟩
                subst h1 h2
                rw [hbe] at hentry
                simp only [Except.ok.injEq] at hentry
                simp [← hok, hentry]
              · obtain ⟨pre, post, hpp⟩ := ih r pair hostPath v hrest htl hentry
                exact ⟨p ++ pre, post, by simp [← hok, hpp]⟩

/-- A mapping value that is neither a string nor an object makes
`_getBinds` throw an `Invalid mapping spec` error. -/
theorem getBinds_invalid_of_mem (mappings : List (String × MappingVal)) :
    ∀ (hostPath rendered : String),
      (hostPath, MappingVal.mOther rendered) ∈ mappings →
      ∃ e, getBinds mappings = .error ("Invalid mapping spec " ++ e) := by
  induction mappings with
  | nil => intro hostPath rendered hmem; simp at hmem
  | cons hd tl ih =>
      intro hostPath rendered hmem
      obtain ⟨hh, hv⟩ := hd
      rcases List.mem_cons.mp hmem with hhd | htl
      · obtain ⟨h1, h2⟩ := Prod.mk.injEq .. ▸ hhd
        subst h1 h2
        exact ⟨rendered, by unfold getBinds; rfl⟩
      · obtain ⟨e, he⟩ := ih hostPath rendered htl
        cases hbe : bindEntry hh hv with
        | error e2 =>
            cases hv with
            | mStr s => simp [bindEntry] at hbe
            | mObj p m => simp [bindEntry] at hbe
            | mOther r2 =>
                refine ⟨r2, ?_⟩
                unfold getBinds
                simp [bindEntry]
        | ok p => exact ⟨e, by unfold getBinds; rw [hbe, he]⟩

/-- An option entry whose value is not `false` contributes its `--key`
flag to the output of `_parseRunOptions`. -/
theorem parseRunOptions_flag_mem (opts : List (String × JsVal)) :
    ∀ (k : String) (v : JsVal), (k, v) ∈ opts → v ≠ JsVal.vBool false →
      JsVal.vStr ("--" ++ k) ∈ parseRunOptions opts := by
  induction opts with
  | nil => intro k v hmem _; simp at hmem
  | cons hd tl ih =>
      intro k v hmem hv
      rcases List.mem_cons.mp hmem with hhd | htl
      · obtain ⟨h1, h2⟩ := Prod.mk.injEq .. ▸ hhd
        subst h1 h2
        unfold parseRunOptions optionEntryFlags
        simp [hv]
      · unfold parseRunOptions
        exact List.mem_append_right _ (ih k v htl hv)

/-- After `_.opts(runOptions, {interactive: null})`, some entry for
`interactive` with a non-`false` value is present, provided the caller
did not set `interactive` to `false`. -/
theorem jsOpts_interactive_entry (opts : List (String × JsVal)) :
    (∀ v, ("interactive", v) ∈ opts → v ≠ JsVal.vBool false) →
    ∃ v, ("interactive", v) ∈ jsOpts opts [("interactive", JsVal.vNull)] ∧
      v ≠ JsVal.vBool false := by
  intro hno
  by_cases hmem : ∃ v, ("interactive", v) ∈ opts
  · obtain ⟨v, hv⟩ := hmem
    exact ⟨v, List.mem_append_left _ hv, hno v hv⟩
  · refine ⟨JsVal.vNull, List.mem_append_right _ ?_, by simp⟩
    rw [List.mem_filter]
    refine ⟨List.mem_singleton_self _, ?_⟩
    rw [List.all_eq_true]
    intro kv hkv
    simp only [decide_eq_true_eq]
    intro hkey
    exact hmem ⟨kv.2, by rw [← hkey]; exact hkv⟩

/-- With `exitOnEnd = false` and a supplied callback, each processed
termination trigger adds exactly one callback invocation and never exits
the host process. -/
theorem foldl_onExit_count (env : DockerEnv) (name : String)
    (events : List TermEvent) :
    ∀ acc : AsyncOutcome, acc.hostExited = false →
      ((events.foldl
        (fun a ev => onExitStep env name true false a (termCode ev))
          acc).callbackCalls.length =
        acc.callbackCalls.length + events.length ∧
      (events.foldl
        (fun a ev => onExitStep env name true false a (termCode ev))
          acc).hostExited = false) := by
  induction events with
  | nil => intro acc hacc; simpa using hacc
  | cons ev rest ih =>
      intro acc hacc
      simp only [List.foldl_cons]
      have hstep1 :
          (onExitStep env name true false acc (termCode ev)).hostExited =
            false := by
        unfold onExitStep
        rw [hacc]
        simp
      have hstep2 :
          (onExitStep env name true false acc
            (termCode ev)).callbackCalls.length =
            acc.callbackCalls.length + 1 := by
        unfold onExitStep
        rw [hacc]
        simp
      obtain ⟨h1, h2⟩ :=
        ih (onExitStep env name true false acc (termCode ev)) hstep1
      refine ⟨?_, h2⟩
      rw [h1, hstep2]
      simp only [List.length_cons]
      omega

/-! ### Claim theorems -/

/-- C3: `_parseRunOptions` emits `--key` for a `true` value, `--key value`
for a string value, but for a `false` value — contrary to the claim that
such a key contributes no element — it pushes the bare value `false`
itself into the argument list (the second condition of the source forgets
to exclude `false`). -/
theorem parseRunOptions_false_pushes_bare_value :
    parseRunOptions [("privileged", JsVal.vBool true)] =
      [JsVal.vStr "--privileged"] ∧
    parseRunOptions [("name", JsVal.vStr "x")] =
      [JsVal.vStr "--name", JsVal.vStr "x"] ∧
    parseRunOptions [("detach", JsVal.vBool false)] = [JsVal.vBool false] ∧
    parseRunOptions [("detach", JsVal.vBool false)] ≠ [] := by
  refine ⟨by decide, by decide, by decide, by decide⟩

/-- C4 counterexample: with an absent (null) identifier, `_removeContainer`
is not a no-op — it executes the remove command `rm -f null` against the
runtime. -/
theorem removeContainer_null_executes_command_cex :
    (removeContainerTrace envFail none false true).cmds = ["rm -f null"] ∧
    (removeContainerTrace envFail none false true).cmds ≠ [] := by
  refine ⟨by decide, by decide⟩

/-- C4 amended: with an absent identifier `_removeContainer` still executes
the remove command (the null identifier is interpolated as the text
`null`), but any failure of that command is caught, so removal never
raises — in particular invoking it twice on a now-absent identifier does
not raise. -/
theorem removeContainer_null_never_raises (env : DockerEnv)
    (hasCallback force : Bool) :
    removeContainer env none hasCallback force =
      .ok (removeContainerTrace env none hasCallback force) ∧
    (removeContainerTrace env none hasCallback force).cmds =
      [removeContainerCmd force none] := by
  exact ⟨rfl, removeContainerTrace_cmds env none hasCallback force⟩

/-- C5 counterexample: `runInContainer('centos', 'true',
{mappings: {'/tmp/a': '/b'}})` does not build `run -v /tmp/a:/b centos
true` — the default `--interactive` flag is also present. -/
theorem runInContainer_scenario_cex :
    (runInContainer envT "centos" ["true"] []
      [("/tmp/a", MappingVal.mStr "/b")]).spawned =
      ["run -v /tmp/a:/b --interactive centos true"] ∧
    (runInContainer envT "centos" ["true"] []
      [("/tmp/a", MappingVal.mStr "/b")]).spawned ≠
      ["run -v /tmp/a:/b centos true"] := by
  refine ⟨rfl, by decide⟩

/-- C5 amended: `runInContainer('centos', 'true', {mappings: {'/tmp/a':
'/b'}})` builds `run -v /tmp/a:/b --interactive centos true`: volume-bind
flags first, then general run options (here the default `--interactive`),
then the image reference, then the command. -/
theorem runInContainer_scenario_args (env : DockerEnv) :
    (runInContainer env "centos" ["true"] []
      [("/tmp/a", MappingVal.mStr "/b")]).spawned =
      ["run -v /tmp/a:/b --interactive centos true"] ∧
    parseRunCommandArguments "centos" ["true"] []
      [("/tmp/a", MappingVal.mStr "/b")] =
      .ok [JsVal.vStr "run", JsVal.vStr "-v", JsVal.vStr "/tmp/a:/b",
        JsVal.vStr "--interactive", JsVal.vStr "centos",
        JsVal.vStr "true"] := by
  exact ⟨rfl, rfl⟩

/-- C10: `imageExists(name)` is true exactly when `getImageId(name)` is
non-null, and `getImageId` returns the first line of the image-listing
output, or null when that first line is empty. -/
theorem imageExists_iff_getImageId (env : DockerEnv) (name : String) :
    (imageExists env name = true ↔ ∃ s, getImageId env name = some s) ∧
    (∀ s, getImageId env name = some s →
      s = firstLine (env.imagesOutput name) ∧ s ≠ "") ∧
    (firstLine (env.imagesOutput name) = "" → getImageId env name = none) := by
  by_cases h : firstLine (env.imagesOutput name) = ""
  · refine ⟨?_, ?_, ?_⟩
    · simp [imageExists, getImageId, h]
    · simp [getImageId, h]
    · intro _; simp [getImageId, h]
  · refine ⟨?_, ?_, ?_⟩
    · simp [imageExists, getImageId, h]
    · intro s hs
      simp only [getImageId, if_neg h, Option.some.injEq] at hs
      exact ⟨hs.symm, hs ▸ h⟩
    · intro hcon; exact absurd hcon h

/-- C10 witness: in a concrete environment with empty image-listing output
`getImageId` is null, and with first line `abc123` the image exists. -/
theorem imageExists_iff_getImageId_witness :
    getImageId envFail "centos" = none ∧ imageExists envT "centos" = true :=
  ⟨(imageExists_iff_getImageId envFail "centos").2.2 rfl,
    (imageExists_iff_getImageId envT "centos").1.mpr ⟨"abc123", rfl⟩⟩

/-- C8: `_removeContainer` never lets an exception escape: it always
returns normally, and when the executed remove command fails the failure
is logged at error level (`Failed to delete container ...`) instead of
being propagated. -/
theorem removeContainer_never_propagates (env : DockerEnv)
    (containerId : Option String) (hasCallback force : Bool) :
    (∃ t, removeContainer env containerId hasCallback force = .ok t) ∧
    (∀ e, env.rmResult (removeContainerCmd force containerId) = .error e →
      removeContainer env containerId hasCallback force =
        .ok { cmds := [removeContainerCmd force containerId],
              debugLogs := [],
              errorLogs := ["Failed to delete container " ++ e],
              callbackRan := hasCallback }) := by
  refine ⟨⟨removeContainerTrace env containerId hasCallback force, rfl⟩, ?_⟩
  intro e he
  simp [removeContainer, removeContainerTrace, he]

/-- C8 witness: a failing remove command (`boom`) is caught and logged. -/
theorem removeContainer_never_propagates_witness :
    removeContainer envFail (some "abc") false true =
      .ok { cmds := ["rm -f abc"], debugLogs := [],
            errorLogs := ["Failed to delete container boom"],
            callbackRan := false } :=
  (removeContainer_never_propagates envFail (some "abc") false true).2
    "boom" rfl

/-- C2: when the async wait times out (and no other trigger fired), the
controller looks up the container id by the assigned name, force-removes
it best-effort, and re-raises the driver's timeout failure; the caller's
callback is not invoked on this path. -/
theorem runAsync_timeout_path (env : DockerEnv) (id : String)
    (cmd : List String) (hasCallback : Bool)
    (runOptions : List (String × JsVal))
    (mappings : List (String × MappingVal)) (genName : String)
    (exitOnEnd : Bool) (args : List JsVal) :
    parseRunCommandArguments id cmd
      (jsOpts runOptions [("name", JsVal.vStr genName)]) mappings =
      .ok args →
    (runInContainerAsync env id cmd hasCallback runOptions mappings genName
      exitOnEnd { events := [], timedOut := true }).thrown =
      some "Exceeded timeout" ∧
    (runInContainerAsync env id cmd hasCallback runOptions mappings genName
      exitOnEnd { events := [], timedOut := true }).callbackCalls = [] ∧
    (runInContainerAsync env id cmd hasCallback runOptions mappings genName
      exitOnEnd { events := [], timedOut := true }).removals =
      [removeContainerCmd true
        (getContainerId env (assignedName runOptions genName))] := by
  intro hok
  simp only [runInContainerAsync, hok, List.foldl_nil]
  simp [removeContainerTrace_cmds]

/-- C2 witness: concrete timeout run — the container `cid1` is looked up
by the generated name and force-removed, the timeout failure is re-raised
and the callback never fires. -/
theorem runAsync_timeout_path_witness :
    (runInContainerAsync envT "img" ["sleep", "100"] true [] [] "1700"
      false { events := [], timedOut := true }).thrown =
      some "Exceeded timeout" ∧
    (runInContainerAsync envT "img" ["sleep", "100"] true [] [] "1700"
      false { events := [], timedOut := true }).callbackCalls = [] ∧
    (runInContainerAsync envT "img" ["sleep", "100"] true [] [] "1700"
      false { events := [], timedOut := true }).removals = ["rm -f cid1"] :=
  runAsync_timeout_path envT "img" ["sleep", "100"] true [] [] "1700"
    false
    [JsVal.vStr "run", JsVal.vStr "--name", JsVal.vStr "1700",
      JsVal.vStr "--interactive", JsVal.vStr "img", JsVal.vStr "sleep",
      JsVal.vStr "100"] rfl

/-- C6: in the output of `_getBinds`, a string-valued mapping entry yields
the contiguous pair `-v host:container` with no trailing mode segment,
and an object entry specifying a (truthy) mode yields
`-v host:container:mode`. -/
theorem getBinds_flag_shapes (mappings : List (String × MappingVal))
    (binds : List String) :
    getBinds mappings = .ok binds →
    (∀ hostPath containerPath,
      (hostPath, MappingVal.mStr containerPath) ∈ mappings →
      ∃ pre post,
        binds = pre ++ ["-v", hostPath ++ ":" ++ containerPath] ++ post) ∧
    (∀ hostPath containerPath mode, mode ≠ "" →
      (hostPath, MappingVal.mObj (some containerPath) (some mode)) ∈
        mappings →
      ∃ pre post, binds =
        pre ++ ["-v", hostPath ++ ":" ++ containerPath ++ ":" ++ mode] ++
          post) := by
  intro hok
  constructor
  · intro hostPath containerPath hmem
    exact getBinds_mem_chunk mappings binds _ hostPath _ hok hmem rfl
  · intro hostPath containerPath mode hmode hmem
    refine getBinds_mem_chunk mappings binds _ hostPath _ hok hmem ?_
    simp only [bindEntry, Option.getD_some, modeSuffix, if_neg hmode,
      Except.ok.injEq]
    simp [String.append_assoc]

/-- C6 witness: a concrete mapping list with one string entry and one
mode-carrying object entry produces exactly the claimed flag shapes. -/
theorem getBinds_flag_shapes_witness :
    getBinds [("h1", MappingVal.mStr "c1"),
      ("h2", MappingVal.mObj (some "c2") (some "ro"))] =
      .ok ["-v", "h1:c1", "-v", "h2:c2:ro"] ∧
    (∃ pre post, ["-v", "h1:c1", "-v", "h2:c2:ro"] =
      pre ++ ["-v", "h2" ++ ":" ++ "c2" ++ ":" ++ "ro"] ++ post) :=
  ⟨rfl,
    (getBinds_flag_shapes
      [("h1", MappingVal.mStr "c1"),
        ("h2", MappingVal.mObj (some "c2") (some "ro"))]
      ["-v", "h1:c1", "-v", "h2:c2:ro"] rfl).2 "h2" "c2" "ro" (by decide)
      (by decide)⟩

/-- C7: a mapping value that is neither a string nor an object makes both
run entry points throw `Invalid mapping spec ...` during argument
building: nothing is spawned, no callback fires and no removal runs. -/
theorem invalid_mapping_before_spawn (env : DockerEnv) (id : String)
    (cmd : List String) (hasCallback : Bool)
    (runOptions : List (String × JsVal))
    (mappings : List (String × MappingVal)) (genName : String)
    (exitOnEnd : Bool) (scenario : Scenario) (hostPath rendered : String) :
    (hostPath, MappingVal.mOther rendered) ∈ mappings →
    ((runInContainerAsync env id cmd hasCallback runOptions mappings
        genName exitOnEnd scenario).spawned = [] ∧
      (runInContainerAsync env id cmd hasCallback runOptions mappings
        genName exitOnEnd scenario).callbackCalls = [] ∧
      (runInContainerAsync env id cmd hasCallback runOptions mappings
        genName exitOnEnd scenario).removals = [] ∧
      (∃ e, (runInContainerAsync env id cmd hasCallback runOptions mappings
        genName exitOnEnd scenario).thrown =
          some ("Invalid mapping spec " ++ e))) ∧
    ((runInContainer env id cmd runOptions mappings).spawned = [] ∧
      (∃ e, (runInContainer env id cmd runOptions mappings).result =
        .error ("Invalid mapping spec " ++ e))) := by
  intro hmem
  obtain ⟨e, he⟩ := getBinds_invalid_of_mem mappings hostPath rendered hmem
  have hparse : ∀ opts2, parseRunCommandArguments id cmd opts2 mappings =
      .error ("Invalid mapping spec " ++ e) := by
    intro opts2
    unfold parseRunCommandArguments
    rw [he]
  constructor
  · refine ⟨?_, ?_, ?_, ⟨e, ?_⟩⟩ <;> simp [runInContainerAsync, hparse]
  · refine ⟨?_, ⟨e, ?_⟩⟩ <;> simp [runInContainer, hparse]

/-- C7 witness: the mapping value `42` makes the synchronous entry point
spawn nothing, and the async entry point throws `Invalid mapping spec 42`
having spawned nothing. -/
theorem invalid_mapping_before_spawn_witness :
    (runInContainer envT "img" ["true"] []
      [("/x", MappingVal.mOther "42")]).spawned = [] ∧
    (runInContainerAsync envT "img" ["true"] true []
      [("/x", MappingVal.mOther "42")] "1700" false
      { events := [], timedOut := false }).thrown =
      some "Invalid mapping spec 42" :=
  ⟨(invalid_mapping_before_spawn envT "img" ["true"] true []
      [("/x", MappingVal.mOther "42")] "1700" false
      { events := [], timedOut := false } "/x" "42"
      (List.mem_singleton_self _)).2.1, rfl⟩

/-- C9: every successfully built command line includes the flag
`--interactive`, unless the caller explicitly set the `interactive` run
option to `false` — `_parseRunCommandArguments` installs `interactive:
null` as a default (both entry points build through it). -/
theorem interactive_default_flag (id : String) (cmd : List String)
    (runOptions : List (String × JsVal))
    (mappings : List (String × MappingVal)) (args : List JsVal) :
    parseRunCommandArguments id cmd runOptions mappings = .ok args →
    (∀ v, ("interactive", v) ∈ runOptions → v ≠ JsVal.vBool false) →
    JsVal.vStr "--interactive" ∈ args := by
  intro hok hno
  obtain ⟨v, hvmem, hvne⟩ := jsOpts_interactive_entry runOptions hno
  have hflag : JsVal.vStr "--interactive" ∈
      parseRunOptions (jsOpts runOptions [("interactive", JsVal.vNull)]) := by
    have := parseRunOptions_flag_mem
      (jsOpts runOptions [("interactive", JsVal.vNull)]) "interactive" v
      hvmem hvne
    simpa using this
  unfold parseRunCommandArguments at hok
  cases hb : getBinds mappings with
  | error e => rw [hb] at hok; simp at hok
  | ok binds =>
      rw [hb] at hok
      simp only [Except.ok.injEq] at hok
      rw [← hok]
      refine List.mem_cons_of_mem _ ?_
      exact List.mem_append_left _
        (List.mem_append_left _ (List.mem_append_right _ hflag))

/-- C9 witness: with no caller-supplied run options the built argument
list contains `--interactive`. -/
theorem interactive_default_flag_witness :
    JsVal.vStr "--interactive" ∈
      [JsVal.vStr "run", JsVal.vStr "--interactive", JsVal.vStr "centos",
        JsVal.vStr "true"] :=
  interactive_default_flag "centos" ["true"] [] []
    [JsVal.vStr "run", JsVal.vStr "--interactive", JsVal.vStr "centos",
      JsVal.vStr "true"] rfl (by intro v hv; simp at hv)

/-- C1 counterexample: in one invocation of `runInContainerAsync` (default
`exitOnEnd: false`), a SIGINT followed by the process exit fires the
termination handler twice, so the caller's callback is invoked twice —
not at most once. -/
theorem runAsync_double_trigger_cex :
    (runInContainerAsync envT "img" ["sleep", "100"] true [] [] "1700"
      false sigintThenExit).callbackCalls =
      [(some "cid1", 127), (some "cid1", 0)] ∧
    ¬((runInContainerAsync envT "img" ["sleep", "100"] true [] [] "1700"
      false sigintThenExit).callbackCalls.length ≤ 1) := by
  refine ⟨by decide, by decide⟩

/-- C1 amended: with a supplied callback and `exitOnEnd` false (the
default), the termination sequence runs once per trigger: the callback is
invoked exactly as many times as termination triggers fire — exactly once
when exactly one of normal exit or interrupt fires, zero times on the
pure timeout path, but twice when both an interrupt and an exit fire
(there is no idempotence guard). -/
theorem runAsync_once_per_trigger (env : DockerEnv) (id : String)
    (cmd : List String) (runOptions : List (String × JsVal))
    (mappings : List (String × MappingVal)) (genName : String)
    (scenario : Scenario) (args : List JsVal) :
    parseRunCommandArguments id cmd
      (jsOpts runOptions [("name", JsVal.vStr genName)]) mappings =
      .ok args →
    (runInContainerAsync env id cmd true runOptions mappings genName false
      scenario).callbackCalls.length = scenario.events.length := by
  intro hok
  simp only [runInContainerAsync, hok]
  obtain ⟨h1, h2⟩ := foldl_onExit_count env
    (assignedName runOptions genName) scenario.events
    { spawned := ["docker " ++ joinArgs args], removals := [],
      callbackCalls := [], removalErrorLogs := [], hostExited := false,
      thrown := none } rfl
  rw [h2]
  by_cases ht : scenario.timedOut <;> simp [ht, h1]

/-- C1 amended witness: a single process-exit trigger invokes the callback
exactly once. -/
theorem runAsync_once_per_trigger_witness :
    (runInContainerAsync envT "img" ["sleep", "100"] true [] [] "1700"
      false singleExit).callbackCalls.length = 1 :=
  runAsync_once_per_trigger envT "img" ["sleep", "100"] [] [] "1700"
    singleExit
    [JsVal.vStr "run", JsVal.vStr "--name", JsVal.vStr "1700",
      JsVal.vStr "--interactive", JsVal.vStr "img", JsVal.vStr "sleep",
      JsVal.vStr "100"] rfl

end DockerUtils
